import Mathlib

/-!
Verification development for the medicraft filter-extraction harness
(src/filter_tester/filter_extractor.py). The Python program is shallowly
embedded: JSON documents become the inductive `Json`, rationals stand for
the finite floating-point values that occur as parsed report numbers,
HTTP transports become explicit oracles (functions from attempt index
to outcome), and each Python function of interest is translated into a
Lean function over these types.
-/

namespace FilterTester

/-- JSON values as delivered by response parsing. Objects are association
lists in document order (Python dict insertion order); numbers are modelled
as rationals (exact values of the finite floats that occur in reports). -/
inductive Json where
  | null
  | bool (b : Bool)
  | num (q : ℚ)
  | str (s : String)
  | arr (elems : List Json)
  | obj (fields : List (String × Json))

/-- Value of a list of decimal digit characters, most significant first. -/
def digitsToNat (cs : List Char) : Nat :=
  cs.foldl (fun a c => a * 10 + (c.toNat - 48)) 0

/-- All characters are decimal digits. -/
def allDigits (cs : List Char) : Bool := cs.all Char.isDigit

/-- Parse the mantissa part of a Python float literal: digits with an
optional decimal point, at least one digit in total. Returns the digit
value together with the number of fractional digits. -/
def parseMantissa (cs : List Char) : Option (Nat × Nat) :=
  match cs.splitOn '.' with
  | [I] => if !I.isEmpty && allDigits I then some (digitsToNat I, 0) else none
  | [I, F] =>
      if (!I.isEmpty || !F.isEmpty) && allDigits I && allDigits F then
        some (digitsToNat (I ++ F), F.length)
      else none
  | _ => none

/-- Parse the exponent part of a Python float literal (after the e). -/
def parseExp : List Char → Option Int
  | [] => none
  | '+' :: rest =>
      if !rest.isEmpty && allDigits rest then some (digitsToNat rest : Int) else none
  | '-' :: rest =>
      if !rest.isEmpty && allDigits rest then some (-(digitsToNat rest : Int)) else none
  | cs => if allDigits cs then some (digitsToNat cs : Int) else none

/-- Build the rational sign * m / 10^f * 10^z from parsed parts, using only
kernel-computable integer arithmetic. -/
def decToRat (neg : Bool) (m f : Nat) (z : Int) : ℚ :=
  let n : Int := if neg then -(m : Int) else (m : Int)
  if 0 ≤ z then mkRat (n * (10 : Int) ^ z.toNat) ((10 : Nat) ^ f)
  else mkRat n ((10 : Nat) ^ (f + (-z).toNat))

/-- Parse an unsigned float literal into (digit value, fraction length,
exponent). -/
def parseUnsignedParts (cs : List Char) : Option (Nat × Nat × Int) :=
  match cs.splitOn 'e' with
  | [m] => (parseMantissa m).map (fun p => (p.1, p.2, (0 : Int)))
  | [m, e] =>
      match parseMantissa m, parseExp e with
      | some p, some z => some (p.1, p.2, z)
      | _, _ => none
  | _ => none

/-- Leading and trailing whitespace removed from a character list: the
Python str.strip(). -/
def trimChars (cs : List Char) : List Char :=
  ((cs.dropWhile Char.isWhitespace).reverse.dropWhile Char.isWhitespace).reverse

/-- Characters of a string in lower case: the Python str.lower() (the
programs only compare ASCII field names). -/
def lowerChars (s : String) : List Char := s.toList.map Char.toLower

/-- Model of the Python float(s) conversion on decimal literals: optional
surrounding whitespace, optional sign, digits with optional point and
optional exponent. (The inf/nan spellings and digit underscores accepted
by Python do not occur in report data and are not modelled; float values
are idealised as exact rationals.) -/
def parseFloat? (s : String) : Option ℚ :=
  match (trimChars s.toList).map Char.toLower with
  | '+' :: rest => (parseUnsignedParts rest).map (fun t => decToRat false t.1 t.2.1 t.2.2)
  | '-' :: rest => (parseUnsignedParts rest).map (fun t => decToRat true t.1 t.2.1 t.2.2)
  | cs => (parseUnsignedParts cs).map (fun t => decToRat false t.1 t.2.1 t.2.2)

/-- Python float(str(value)) on a JSON value: numbers convert to
themselves, strings are parsed, everything else (None, booleans, arrays,
objects) fails to parse. Mirrors the conversion inside is_numeric and the
comparison branch of extract_sample_value. -/
def toFloat? : Json → Option ℚ
  | .num q => some q
  | .str s => parseFloat? s
  | _ => none

/-- is_numeric from filter_extractor.py: None is not numeric, otherwise a
value is numeric iff float(str(value)) succeeds. -/
def is_numeric (v : Json) : Bool := (toFloat? v).isSome

/-- The test `value is not None and str(value).strip() != ""` applied to a
row value: None and blank strings are rejected, every other value has a
non-blank str() rendering. -/
def isPresent : Json → Bool
  | .null => false
  | .str s => !(trimChars s.toList).isEmpty
  | _ => true

/-- The first list starts with the second list. -/
def leadsWith : List Char → List Char → Bool
  | _, [] => true
  | [], _ :: _ => false
  | a :: as, b :: bs => a == b && leadsWith as bs

/-- Substring containment on character lists, as Python's
`needle in hay`. -/
def containsChars (needle : List Char) : List Char → Bool
  | [] => needle.isEmpty
  | c :: rest => leadsWith (c :: rest) needle || containsChars needle rest

/-- The candidate key spellings tried in priority order by
extract_sample_value. -/
def possible_keys (group field : String) : List String :=
  [field, group ++ "." ++ field, group ++ "_" ++ field, group ++ " " ++ field]

/-- First candidate key present in the row with a non-null, non-blank
value (the for-loop over possible_keys). -/
def findExact (row : List (String × Json)) : List String → Option Json
  | [] => none
  | k :: ks =>
      match row.lookup k with
      | some v => if isPresent v then some v else findExact row ks
      | none => findExact row ks

/-- Fallback scan (the for-else branch): first row entry whose key contains
the field name case-insensitively and whose value is non-null, non-blank. -/
def findFallback (field : String) : List (String × Json) → Option Json
  | [] => none
  | (k, v) :: rest =>
      if containsChars (lowerChars field) (lowerChars k) && isPresent v then some v
      else findFallback field rest

/-- Value resolved for one row: the exact-key loop, falling back to the
substring scan when no candidate key matched. -/
def rowValue (group field : String) (row : List (String × Json)) : Option Json :=
  match findExact row (possible_keys group field) with
  | some v => some v
  | none => findFallback field row

/-- Collect the resolved values of all dict rows, preserving order and the
exact raw values. -/
def collectValues (group field : String) (rows : List Json) : List Json :=
  rows.filterMap fun row =>
    match row with
    | .obj fields => rowValue group field fields
    | _ => none

/-- Locate the row list: response_data must be an object whose "response"
member is an object whose "data" member is a non-empty array. All other
shapes make extract_sample_value return None (either its guard fails or
the subscription raises and the surrounding except returns None). -/
def getRows (response_data : Json) : Option (List Json) :=
  match response_data with
  | .obj fs =>
      match fs.lookup ("response") with
      | some (.obj rf) =>
          match rf.lookup ("data") with
          | some (.arr rows) => if rows.length > 0 then some rows else none
          | _ => none
      | _ => none
  | _ => none

/-- Values collected from the located rows (empty when no rows are found). -/
def collectedValues (response_data : Json) (group field : String) : List Json :=
  match getRows response_data with
  | none => []
  | some rows => collectValues group field rows

/-- numeric_values together with the original values they were parsed
from, in collection order (the loop building numeric_values and
original_to_numeric). -/
def numericPairs (values : List Json) : List (ℚ × Json) :=
  values.filterMap fun v => (toFloat? v).map fun q => (q, v)

/-- Lookup in the original_to_numeric dict: assignments in collection
order mean a later pair with the same key shadows an earlier one. -/
def lookupLast : List (ℚ × Json) → ℚ → Option Json
  | [], _ => none
  | p :: ps, q =>
      match lookupLast ps q with
      | some v => some v
      | none => if p.1 = q then some p.2 else none

/-- numeric_values after the in-place ascending sort. (Any sorted
permutation of a list of rationals is the same list, so insertion sort
models Python's list.sort here.) -/
def sortedNumeric (values : List Json) : List ℚ :=
  ((numericPairs values).map Prod.fst).insertionSort (fun a b => a ≤ b)

/-- The slice numeric_values[start_idx:end_idx] of the sorted values,
with start_idx = len // 4 and end_idx = 3 * len // 4. -/
def iqrSlice (values : List Json) : List ℚ :=
  ((sortedNumeric values).drop ((sortedNumeric values).length / 4)).take
    (3 * (sortedNumeric values).length / 4 - (sortedNumeric values).length / 4)

/-- The number selected from the middle of the inter-quartile slice, when
the slice is non-empty: the slice indexed at half its length. None when
fewer than two numeric values or an empty slice (the fall-through to the
first collected value). -/
def selectedNumeric (values : List Json) : Option ℚ :=
  if 1 < ((numericPairs values).map Prod.fst).length then
    if (iqrSlice values).isEmpty then none
    else some ((iqrSlice values).getD ((iqrSlice values).length / 2) 0)
  else none

/-- Result of the comparison branch: none means fall through to the first
collected value; some r means the branch returns r (where r itself is
none only in the impossible KeyError case, which the outer except turns
into a None result). -/
def comparisonPick (values : List Json) : Option (Option Json) :=
  match selectedNumeric values with
  | none => none
  | some q => some (lookupLast (numericPairs values) q)

/-- extract_sample_value from filter_extractor.py: locate rows, collect
non-null non-blank values, and either return the first value or (for
comparison filters with more than one value) the original value whose
parse is the selected middle-range number. -/
def extract_sample_value (response_data : Json) (group field : String)
    (for_comparison : Bool) : Option Json :=
  let values := collectedValues response_data group field
  if values.isEmpty then none
  else if for_comparison && values.length > 1 then
    match comparisonPick values with
    | some res => res
    | none => values.head?
  else values.head?

/-- The fixed filter-operator catalog. -/
def FILTERS : List String := ["equal", "not_equal", "greater", "less", "like", "in"]

/-- get_applicable_filters: None tries everything, numeric values allow
all six operators, anything else excludes greater and less. -/
def get_applicable_filters (sample_value : Json) : List String :=
  match sample_value with
  | Json.null => FILTERS
  | v =>
      if is_numeric v then FILTERS
      else FILTERS.filter (fun f => !(f == "greater" || f == "less"))

/-- An HTTP response as the program observes it: status code, the parsed
JSON body when res.json() succeeds (none when parsing fails), and the raw
text used by the safe_json fallback. -/
structure HResponse where
  status : Nat
  body : Option Json
  rawText : String

/-- safe_json: the parsed body, or the fallback record built from the
first 4000 characters of the raw text and the status code. -/
def safe_json (r : HResponse) : Json :=
  match r.body with
  | some j => j
  | none =>
      Json.obj [("_raw_text", Json.str ((r.rawText.toList.take 4000).asString)),
        ("_status_code", Json.num (r.status : ℚ))]

/-- Outcome of one transport attempt (one session.post call): a response,
or a RequestException. -/
inductive AttemptResult where
  | resp (r : HResponse)
  | netfail

/-- Result of post_with_retry: a returned response, a RequestException
propagated to the caller, or the implicit None returned when the loop
body never runs (retries = 0). -/
inductive PostResult where
  | ok (r : HResponse)
  | raised
  | fellThrough

/-- The retry loop of post_with_retry. `net` maps the attempt number
(1-based) to that attempt's outcome, `remaining` counts the attempts still
available including the current one, `delay` is the current backoff. The
second component records the sleeps performed, in order. -/
def postLoop (net : Nat → AttemptResult) (attempt delay : Nat) :
    Nat → PostResult × List Nat
  | 0 => (.fellThrough, [])
  | n + 1 =>
      match net attempt with
      | .resp r => (.ok r, [])
      | .netfail =>
          if n = 0 then (.raised, [])
          else
            let rest := postLoop net (attempt + 1) (delay * 2) n
            (rest.1, delay :: rest.2)

/-- post_with_retry: attempts run from 1 to retries, the exception of the
final attempt is re-raised, earlier failures sleep the current delay and
double it. -/
def post_with_retry (net : Nat → AttemptResult) (retries : Nat) :
    PostResult × List Nat :=
  postLoop net 1 1 retries

/-- Outcome of one login() call against the authentication endpoint. -/
inductive LoginOutcome where
  | netErr
  | resp (r : HResponse)

/-- What a login() call does: return a token value, return None after
logging the failure, or let an exception escape. -/
inductive LoginResult where
  | token (t : Json)
  | failure
  | exn

/-- requests' Response.ok: raise_for_status raises exactly for client and
server error codes, so ok is status outside [400, 600). -/
def res_ok (status : Nat) : Bool := !(400 ≤ status && status < 600)

/-- body.get("data", {}).get("access_token") on the parsed body: a missing
"data" member reads from the {} default, an object member is read
normally, and a non-object member (its .get does not exist) raises
AttributeError. A non-dict body leaves token = None. -/
def extractToken : Json → Except Unit Json
  | .obj fields =>
      match fields.lookup ("data") with
      | none => Except.ok Json.null
      | some (.obj d) => Except.ok ((d.lookup ("access_token")).getD Json.null)
      | some _ => Except.error ()
  | _ => Except.ok Json.null

/-- Python falsiness of a JSON value (`if not token`). -/
def jsonFalsy : Json → Bool
  | .null => true
  | .bool b => !b
  | .num q => decide (q = 0)
  | .str s => s == ""
  | .arr xs => xs.isEmpty
  | .obj fs => fs.isEmpty

/-- TokenManager.login: a network error or a non-ok status returns None;
otherwise the access token is read from the body and returned when
truthy, with None returned for a falsy token. -/
def login (outcome : LoginOutcome) : LoginResult :=
  match outcome with
  | .netErr => .failure
  | .resp r =>
      if !(res_ok r.status) then .failure
      else
        match extractToken (safe_json r) with
        | .error _ => .exn
        | .ok t => if jsonFalsy t then .failure else .token t

/-- What fetch_field_data returns: a response, or None (no token,
or a transport failure that exhausted its retries). The crash case marks
the unreachable AttributeError on a None result of post_with_retry. -/
inductive FetchResult where
  | resp (r : HResponse)
  | noResp
  | crash

/-- Observable outcome of one fetch_field_data call: its return value,
the final token slot of the TokenManager, the post_with_retry calls made
(bearer token used, retries budget), and how many login() calls ran. -/
structure FetchOutcome where
  result : FetchResult
  finalTok : Option Json
  posts : List (Json × Nat)
  loginsUsed : Nat

/-- Body of fetch_field_data once a token t is at hand. `nextLogin` is
the result the next login() call would produce (used by refresh on 401),
`loginsBefore` counts login() calls already made by the initial get. -/
def fetch_core (t : Json) (nextLogin : Option Json)
    (net1 net2 : Nat → AttemptResult) (loginsBefore : Nat) : FetchOutcome :=
  match (post_with_retry net1 2).1 with
  | .raised => ⟨.noResp, some t, [(t, 2)], loginsBefore⟩
  | .fellThrough => ⟨.crash, some t, [(t, 2)], loginsBefore⟩
  | .ok r =>
      if r.status = 401 then
        match nextLogin with
        | none => ⟨.resp r, none, [(t, 2)], loginsBefore + 1⟩
        | some t2 =>
            match (post_with_retry net2 1).1 with
            | .ok r2 => ⟨.resp r2, some t2, [(t, 2), (t2, 1)], loginsBefore + 1⟩
            | .raised => ⟨.noResp, some t2, [(t, 2), (t2, 1)], loginsBefore + 1⟩
            | .fellThrough => ⟨.crash, some t2, [(t, 2), (t2, 1)], loginsBefore + 1⟩
      else ⟨.resp r, some t, [(t, 2)], loginsBefore⟩

/-- fetch_field_data: get a token (cached, else one login), post the
report request with a budget of 2 attempts; on a 401 refresh the token
(one more login), rebuild the Authorization header with the fresh token
and retry once (budget 1), returning the original 401 response when the
re-login fails; any second response is returned as-is. `logins` maps the
index of each login() call performed by this invocation to its result. -/
def fetch_field_data (tok0 : Option Json) (logins : Nat → Option Json)
    (net1 net2 : Nat → AttemptResult) : FetchOutcome :=
  match tok0 with
  | some t => fetch_core t (logins 0) net1 net2 0
  | none =>
      match logins 0 with
      | none => ⟨.noResp, none, [], 1⟩
      | some t => fetch_core t (logins 1) net1 net2 1

/-- File name of the raw artifact of a field. -/
def raw_file : String := "raw_data.json"

/-- The raw artifact record written when a response was obtained. -/
def rawResultJson (group field : String) (res : HResponse) : Json :=
  Json.obj [("group", Json.str group), ("field", Json.str field),
    ("status_code", Json.num (res.status : ℚ)), ("filter", Json.null),
    ("response", safe_json res)]

/-- The network-failure sentinel written when the raw fetch returned
None. -/
def netFailJson (group field : String) : Json :=
  Json.obj [("group", Json.str group), ("field", Json.str field),
    ("error", Json.str ("network_failed")), ("filter", Json.null)]

/-- The operators whose filter value prefers the comparison sample. -/
def comparison_filters : List String := ["greater", "less"]

/-- The filter artifact record for one operator. -/
def filterResultJson (group field op : String) (fv : Json) (res : HResponse) : Json :=
  Json.obj [("group", Json.str group), ("field", Json.str field),
    ("status_code", Json.num (res.status : ℚ)), ("filter", Json.str op),
    ("filter_value", fv), ("response", safe_json res)]

/-- The network-failure sentinel for one operator. -/
def filterFailJson (group field op : String) (fv : Json) : Json :=
  Json.obj [("group", Json.str group), ("field", Json.str field),
    ("error", Json.str ("network_failed")), ("filter", Json.str op),
    ("filter_value", fv)]

/-- process_field, abstracted over the fetch outcomes: `rawRes` is the
return of the unfiltered fetch (none = network failure), `filtRes` the
return of the fetch for each operator. The result is the list of
artifact files written, as (file name, JSON content) in write order. -/
def process_field (group field : String) (rawRes : Option HResponse)
    (filtRes : String → Option HResponse) : List (String × Json) :=
  match rawRes with
  | none => [(raw_file, netFailJson group field)]
  | some res =>
      let raw_result := rawResultJson group field res
      let sample := extract_sample_value raw_result group field false
      let comparison := extract_sample_value raw_result group field true
      match sample with
      | none => [(raw_file, raw_result)]
      | some sv =>
          (raw_file, raw_result) ::
          (get_applicable_filters sv).map (fun op =>
            let fv := if op ∈ comparison_filters && comparison.isSome
              then comparison.getD sv else sv
            match filtRes op with
            | none => (op ++ ".json", filterFailJson group field op fv)
            | some r2 => (op ++ ".json", filterResultJson group field op fv r2))

/-- The rows of the worked example of the specification: four payment
rows whose amount values are the strings 12.50, 45, 30 and 9. -/
def exampleRows : List Json :=
  [Json.obj [("amount", Json.str ("12.50"))],
   Json.obj [("amount", Json.str ("45"))],
   Json.obj [("amount", Json.str ("30"))],
   Json.obj [("amount", Json.str ("9"))]]

/-- The example rows wrapped the way extract_sample_value receives them
(under response.data). -/
def exampleWrap : Json :=
  Json.obj [("response", Json.obj [("data", Json.arr exampleRows)])]

/-- Rows with a numeric tie: the amounts 10, 20.0, 20 and 30, where the
strings 20.0 and 20 parse to the same number. -/
def tieRows : List Json :=
  [Json.obj [("amount", Json.str ("10"))],
   Json.obj [("amount", Json.str ("20.0"))],
   Json.obj [("amount", Json.str ("20"))],
   Json.obj [("amount", Json.str ("30"))]]

/-- The tie rows wrapped under response.data. -/
def tieWrap : Json :=
  Json.obj [("response", Json.obj [("data", Json.arr tieRows)])]

/-- For a non-null sample value the filter set is decided by is_numeric
alone. -/
theorem get_applicable_filters_ne_null (v : Json) (hv : v ≠ Json.null) :
    get_applicable_filters v =
      if is_numeric v then FILTERS
      else FILTERS.filter (fun f => !(f == "greater" || f == "less")) := by
  cases v
  · exact absurd rfl hv
  all_goals rfl

/-- Every applicable filter is drawn from the fixed operator catalog. -/
theorem mem_FILTERS_of_mem_applicable (sv : Json) :
    ∀ op ∈ get_applicable_filters sv, op ∈ FILTERS := by
  intro op hop
  unfold get_applicable_filters at hop
  split at hop
  · exact hop
  · split at hop
    · exact hop
    · exact List.mem_of_mem_filter hop

/-- The first artifact written for a field with a response is always the
raw record. -/
theorem process_field_head (group field : String) (res : HResponse)
    (filtRes : String → Option HResponse) :
    (process_field group field (some res) filtRes).head? =
      some (raw_file, rawResultJson group field res) := by
  cases h : extract_sample_value (rawResultJson group field res) group field false <;>
    simp [process_field, h]

/-- Claim C1: on the example rows with amounts 12.50, 45, 30, 9, the
comparison extraction does NOT return 12.50: the middle index of the
two-element inter-quartile slice is 2 / 2 = 1, not 0, so the original
value 30 is returned. -/
theorem extract_c1_middle_counterexample :
    extract_sample_value exampleWrap "payment" "amount" true = some (Json.str ("30")) ∧
    extract_sample_value exampleWrap "payment" "amount" true ≠ some (Json.str ("12.50")) := by
  refine ⟨rfl, fun h => ?_⟩
  have h30 : extract_sample_value exampleWrap "payment" "amount" true =
      some (Json.str ("30")) := rfl
  rw [h30] at h
  have hs : ("30" : String) = "12.50" := by
    injection Option.some.inj h
  exact absurd hs (by decide)

/-- Claim C1 (amended): on the example rows the parsed numbers sort to
[9, 12.5, 30, 45], the inter-quartile slice at indices [1,3) is
[12.5, 30], the element at the middle index 2 / 2 = 1 of that slice is
30, and the original unconverted value 30 is returned as the comparison
sample. -/
theorem extract_c1_selects_thirty :
    sortedNumeric (collectedValues exampleWrap "payment" "amount") =
      [mkRat 9 1, mkRat 25 2, mkRat 30 1, mkRat 45 1] ∧
    iqrSlice (collectedValues exampleWrap "payment" "amount") =
      [mkRat 25 2, mkRat 30 1] ∧
    selectedNumeric (collectedValues exampleWrap "payment" "amount") =
      some (mkRat 30 1) ∧
    extract_sample_value exampleWrap "payment" "amount" true =
      some (Json.str ("30")) :=
  ⟨rfl, rfl, rfl, rfl⟩

/-- Claim C7: when the non-comparison extraction is Absent, the field
processor writes the raw artifact and nothing else. -/
theorem absent_sample_skips_filters (group field : String) (res : HResponse)
    (filtRes : String → Option HResponse)
    (h : extract_sample_value (rawResultJson group field res) group field false = none) :
    process_field group field (some res) filtRes =
      [(raw_file, rawResultJson group field res)] := by
  simp [process_field, h]

/-- Witness for C7: a 200 response whose body has no response.data rows
yields exactly the raw artifact. -/
theorem absent_sample_skips_filters_witness :
    process_field "payment" "note" (some ⟨200, some (Json.obj []), ""⟩) (fun _ => none) =
      [(raw_file, rawResultJson "payment" "note" ⟨200, some (Json.obj []), ""⟩)] :=
  absent_sample_skips_filters "payment" "note" ⟨200, some (Json.obj []), ""⟩ (fun _ => none) rfl

/-- Claim C8: every processed field writes exactly one raw artifact -
the network-failure sentinel when the fetch returned None, else the raw
record, which is written first; filter artifacts never reuse the raw
file name. -/
theorem exactly_one_raw_artifact (group field : String) (rawRes : Option HResponse)
    (filtRes : String → Option HResponse) :
    ((process_field group field rawRes filtRes).filter
      (fun a => a.1 == raw_file)).length = 1 ∧
    (rawRes = none →
      process_field group field rawRes filtRes = [(raw_file, netFailJson group field)]) ∧
    (∀ r, rawRes = some r →
      (process_field group field rawRes filtRes).head? =
        some (raw_file, rawResultJson group field r)) := by
  refine ⟨?_, ?_, ?_⟩
  · cases rawRes with
    | none => rfl
    | some res =>
        cases h : extract_sample_value (rawResultJson group field res) group field false with
        | none => simp [process_field, h, raw_file]
        | some sv =>
            simp only [process_field, h]
            rw [List.filter_cons_of_pos (by simp [raw_file])]
            have hnil : ((get_applicable_filters sv).map (fun op =>
                let fv := if op ∈ comparison_filters &&
                    (extract_sample_value (rawResultJson group field res) group field true).isSome
                  then (extract_sample_value (rawResultJson group field res) group field true).getD sv
                  else sv
                match filtRes op with
                | none => (op ++ ".json", filterFailJson group field op fv)
                | some r2 => (op ++ ".json", filterResultJson group field op fv r2))).filter
                (fun a => a.1 == raw_file) = [] := by
              rw [List.filter_eq_nil_iff]
              intro a ha
              rw [List.mem_map] at ha
              obtain ⟨op, hop, rfl⟩ := ha
              have hopF : op ∈ FILTERS := mem_FILTERS_of_mem_applicable sv op hop
              cases hfil : filtRes op <;> simp only [hfil] <;>
                fin_cases hopF <;> decide
            rw [hnil]
            rfl
  · intro h
    subst h
    rfl
  · intro r h
    subst h
    exact process_field_head group field r filtRes

/-- Witness for C8: with no response the output is exactly the sentinel
record, and with a 200 response the raw record is written first. -/
theorem exactly_one_raw_artifact_witness :
    process_field "payment" "amount" none (fun _ => none) =
      [(raw_file, netFailJson "payment" "amount")] ∧
    (process_field "payment" "amount" (some ⟨200, some exampleWrap, ""⟩)
        (fun _ => none)).head? =
      some (raw_file, rawResultJson "payment" "amount" ⟨200, some exampleWrap, ""⟩) :=
  ⟨(exactly_one_raw_artifact "payment" "amount" none (fun _ => none)).2.1 rfl,
   (exactly_one_raw_artifact "payment" "amount" (some ⟨200, some exampleWrap, ""⟩)
      (fun _ => none)).2.2 _ rfl⟩

/-- Claim C9: is_numeric is exactly float-parseability, a numeric sample
admits all six operators, and a non-numeric sample admits all operators
except greater and less. -/
theorem applicable_filters_by_type (v : Json) (hv : v ≠ Json.null) :
    is_numeric v = (toFloat? v).isSome ∧
    (is_numeric v = true → get_applicable_filters v = FILTERS) ∧
    (is_numeric v = false →
      get_applicable_filters v = ["equal", "not_equal", "like", "in"]) := by
  refine ⟨rfl, fun h => ?_, fun h => ?_⟩ <;>
    rw [get_applicable_filters_ne_null v hv, h]
  · rfl
  · rfl

/-- Witness for C9: the numeric string 30 admits all six operators and
the non-numeric string abc admits four. -/
theorem applicable_filters_by_type_witness :
    get_applicable_filters (Json.str ("30")) = FILTERS ∧
    get_applicable_filters (Json.str ("abc")) = ["equal", "not_equal", "like", "in"] :=
  ⟨(applicable_filters_by_type (Json.str ("30")) (fun h => Json.noConfusion h)).2.1 rfl,
   (applicable_filters_by_type (Json.str ("abc")) (fun h => Json.noConfusion h)).2.2 rfl⟩

/-- If every attempt from a on fails until attempt k responds, the loop
returns that response and has slept the doubling delays d, 2d, ... once
per failed attempt. -/
theorem postLoop_ok (net : Nat → AttemptResult) (r : HResponse) :
    ∀ (m a d k : Nat), a ≤ k → k < a + m →
      (∀ j, a ≤ j → j < k → net j = AttemptResult.netfail) →
      net k = AttemptResult.resp r →
      postLoop net a d m = (PostResult.ok r, (List.range (k - a)).map (fun i => d * 2 ^ i)) := by
  intro m
  induction m with
  | zero => intro a d k h1 h2 _ _; omega
  | succ n ih =>
      intro a d k h1 h2 hfail hk
      by_cases hak : a = k
      · subst hak
        simp [postLoop, hk]
      · have halt : a < k := lt_of_le_of_ne h1 hak
        have hfa : net a = AttemptResult.netfail := hfail a le_rfl halt
        have hn : n ≠ 0 := by omega
        have hrest := ih (a + 1) (d * 2) k (by omega) (by omega)
          (fun j hj1 hj2 => hfail j (by omega) hj2) hk
        simp only [postLoop, hfa, if_neg hn, hrest]
        have hka : k - a = (k - (a + 1)) + 1 := by omega
        rw [hka, List.range_succ_eq_map, List.map_cons, List.map_map]
        refine congrArg (fun l => (PostResult.ok r, l)) ?_
        refine congrArg₂ (· :: ·) (by ring) ?_
        exact List.map_congr_left (fun i _ => by simp [Function.comp, pow_succ]; ring)

/-- If every available attempt fails, the loop re-raises the last failure
after sleeping the doubling delays between attempts. -/
theorem postLoop_raised (net : Nat → AttemptResult) :
    ∀ (m a d : Nat), 1 ≤ m →
      (∀ j, a ≤ j → j < a + m → net j = AttemptResult.netfail) →
      postLoop net a d m = (PostResult.raised, (List.range (m - 1)).map (fun i => d * 2 ^ i)) := by
  intro m
  induction m with
  | zero => intro a d h1 _; omega
  | succ n ih =>
      intro a d _ hfail
      have hfa : net a = AttemptResult.netfail := hfail a le_rfl (by omega)
      by_cases hn : n = 0
      · subst hn
        simp [postLoop, hfa]
      · have hrest := ih (a + 1) (d * 2) (by omega)
          (fun j hj1 hj2 => hfail j (by omega) (by omega))
        simp only [postLoop, hfa, if_neg hn, hrest]
        rw [Nat.succ_sub_one]
        conv_rhs => rw [show n = (n - 1) + 1 from by omega, List.range_succ_eq_map,
          List.map_cons, List.map_map]
        refine congrArg (fun l => (PostResult.raised, l)) ?_
        refine congrArg₂ (· :: ·) (by ring) ?_
        exact (List.map_congr_left (fun i _ => by simp [Function.comp, pow_succ]; ring)).symm

/-- Claim C3: post_with_retry makes at most `retries` attempts; each
network failure before the last attempt sleeps the backoff (1 time-unit,
then doubling) and retries; the first attempt that yields a response -
whatever its status - returns it immediately with no further attempts;
and when all `retries` attempts fail with a network failure the failure
is raised to the caller. -/
theorem post_with_retry_policy (net : Nat → AttemptResult) (retries : Nat)
    (hret : 1 ≤ retries) :
    (∀ r k, 1 ≤ k → k ≤ retries →
      (∀ j, 1 ≤ j → j < k → net j = AttemptResult.netfail) →
      net k = AttemptResult.resp r →
      post_with_retry net retries =
        (PostResult.ok r, (List.range (k - 1)).map (fun i => 2 ^ i))) ∧
    ((∀ j, 1 ≤ j → j ≤ retries → net j = AttemptResult.netfail) →
      post_with_retry net retries =
        (PostResult.raised, (List.range (retries - 1)).map (fun i => 2 ^ i))) := by
  constructor
  · intro r k hk1 hk2 hfail hk
    have := postLoop_ok net r retries 1 1 k hk1 (by omega) hfail hk
    simpa using this
  · intro hfail
    have := postLoop_raised net retries 1 1 hret (fun j hj1 hj2 => hfail j hj1 (by omega))
    simpa using this

/-- Witness for C3: with a transport that fails on attempt 1 and returns
a 500 response on attempt 2, a budget of 2 attempts sleeps once for 1
time-unit and returns the 500 response. -/
theorem post_with_retry_policy_witness :
    post_with_retry (fun k => if k = 1 then AttemptResult.netfail
      else AttemptResult.resp ⟨500, none, ""⟩) 2 =
      (PostResult.ok ⟨500, none, ""⟩, [1]) :=
  (post_with_retry_policy _ 2 (by decide)).1 ⟨500, none, ""⟩ 2 (by decide) (by decide)
    (fun j h1 h2 => by
      have hj : j = 1 := by omega
      rw [hj]
      rfl)
    rfl

/-- Claim C2: when the first report response of a fetch is a 401 and a
token is cached, exactly one reacquisition login runs, the request is
retried exactly once with the fresh token in the Authorization header
(with a single-attempt budget), and whatever the retried response is -
including a second 401 - it is returned as-is, and the raw artifact then
persists it under its original status code. -/
theorem fetch_401_retries_once (t t2 : Json) (logins : Nat → Option Json)
    (net1 net2 : Nat → AttemptResult) (r r2 : HResponse)
    (group field : String) (filtRes : String → Option HResponse)
    (h1 : (post_with_retry net1 2).1 = PostResult.ok r)
    (h401 : r.status = 401)
    (hl : logins 0 = some t2)
    (h2 : (post_with_retry net2 1).1 = PostResult.ok r2) :
    fetch_field_data (some t) logins net1 net2 =
      ⟨FetchResult.resp r2, some t2, [(t, 2), (t2, 1)], 1⟩ ∧
    (process_field group field (some r2) filtRes).head? =
      some (raw_file, rawResultJson group field r2) := by
  constructor
  · simp [fetch_field_data, fetch_core, h1, hl, h2, h401]
  · exact process_field_head group field r2 filtRes

/-- Witness for C2: both report requests answer 401; the fetch performs
one re-login, retries once with the fresh token, and returns the second
401 unchanged. -/
theorem fetch_401_retries_once_witness :
    fetch_field_data (some (Json.str ("t1"))) (fun _ => some (Json.str ("t2")))
      (fun _ => AttemptResult.resp ⟨401, some (Json.obj []), ""⟩)
      (fun _ => AttemptResult.resp ⟨401, some (Json.obj []), ""⟩) =
      ⟨FetchResult.resp ⟨401, some (Json.obj []), ""⟩, some (Json.str ("t2")),
        [(Json.str ("t1"), 2), (Json.str ("t2"), 1)], 1⟩ :=
  (fetch_401_retries_once (Json.str ("t1")) (Json.str ("t2"))
    (fun _ => some (Json.str ("t2")))
    (fun _ => AttemptResult.resp ⟨401, some (Json.obj []), ""⟩)
    (fun _ => AttemptResult.resp ⟨401, some (Json.obj []), ""⟩)
    ⟨401, some (Json.obj []), ""⟩ ⟨401, some (Json.obj []), ""⟩
    "payment" "amount" (fun _ => none) rfl rfl rfl rfl).1

/-- Claim C10: when the first report response is a 401 and the re-login
fails to yield a token, fetch_field_data returns the original 401
response object unchanged, and the field processor persists it as a
normal raw artifact carrying status_code 401, not as a network-failure
sentinel. -/
theorem relogin_failure_persists_401 (t : Json) (logins : Nat → Option Json)
    (net1 net2 : Nat → AttemptResult) (r : HResponse)
    (group field : String) (filtRes : String → Option HResponse)
    (h1 : (post_with_retry net1 2).1 = PostResult.ok r)
    (h401 : r.status = 401)
    (hl : logins 0 = none) :
    fetch_field_data (some t) logins net1 net2 =
      ⟨FetchResult.resp r, none, [(t, 2)], 1⟩ ∧
    (process_field group field (some r) filtRes).head? =
      some (raw_file, rawResultJson group field r) ∧
    rawResultJson group field r =
      Json.obj [("group", Json.str group), ("field", Json.str field),
        ("status_code", Json.num 401), ("filter", Json.null),
        ("response", safe_json r)] := by
  refine ⟨?_, process_field_head group field r filtRes, ?_⟩
  · simp [fetch_field_data, fetch_core, h1, hl, h401]
  · simp [rawResultJson, h401]

/-- Witness for C10: a 401 report response followed by a failed re-login
returns the 401 response with no retry, and the raw artifact records
status_code 401. -/
theorem relogin_failure_persists_401_witness :
    fetch_field_data (some (Json.str ("t1"))) (fun _ => none)
      (fun _ => AttemptResult.resp ⟨401, some (Json.obj []), ""⟩)
      (fun _ => AttemptResult.netfail) =
      ⟨FetchResult.resp ⟨401, some (Json.obj []), ""⟩, none, [(Json.str ("t1"), 2)], 1⟩ ∧
    (process_field "payment" "amount" (some ⟨401, some (Json.obj []), ""⟩)
        (fun _ => none)).head? =
      some (raw_file, rawResultJson "payment" "amount" ⟨401, some (Json.obj []), ""⟩) :=
  ⟨(relogin_failure_persists_401 (Json.str ("t1")) (fun _ => none)
      (fun _ => AttemptResult.resp ⟨401, some (Json.obj []), ""⟩)
      (fun _ => AttemptResult.netfail) ⟨401, some (Json.obj []), ""⟩
      "payment" "amount" (fun _ => none) rfl rfl rfl).1,
   (relogin_failure_persists_401 (Json.str ("t1")) (fun _ => none)
      (fun _ => AttemptResult.resp ⟨401, some (Json.obj []), ""⟩)
      (fun _ => AttemptResult.netfail) ⟨401, some (Json.obj []), ""⟩
      "payment" "amount" (fun _ => none) rfl rfl rfl).2.1⟩

/-- Claim C6: a 302 response whose body carries a token at
data.access_token makes login return that token - requests' ok predicate
accepts every status below 400, so a 3xx authentication response is not
treated as a failure. -/
theorem login_succeeds_on_302 :
    login (LoginOutcome.resp ⟨302,
        some (Json.obj [("data", Json.obj [("access_token", Json.str ("tok"))])]), ""⟩) =
      LoginResult.token (Json.str ("tok")) ∧
    login (LoginOutcome.resp ⟨302,
        some (Json.obj [("data", Json.obj [("access_token", Json.str ("tok"))])]), ""⟩) ≠
      LoginResult.failure :=
  ⟨rfl, fun h => LoginResult.noConfusion
    ((rfl : login (LoginOutcome.resp ⟨302,
        some (Json.obj [("data", Json.obj [("access_token", Json.str ("tok"))])]), ""⟩) =
      LoginResult.token (Json.str ("tok"))).symm.trans h)⟩

/-- Claim C6 (amended): provided the body's data member, when present, is
an object (otherwise the token read raises an uncaught AttributeError),
login returns a token exactly when the response arrived, its status is
outside the 4xx/5xx error range (3xx included), and the body holds a
truthy token at data.access_token; otherwise - network error, error
status, or missing/falsy token - login returns the reported failure
without raising. -/
theorem login_token_characterization (o : LoginOutcome)
    (hshape : ∀ r, o = LoginOutcome.resp r →
      ∀ e, extractToken (safe_json r) ≠ Except.error e) :
    ((∃ t, login o = LoginResult.token t) ↔
      (∃ r t, o = LoginOutcome.resp r ∧ res_ok r.status = true ∧
        extractToken (safe_json r) = Except.ok t ∧ jsonFalsy t = false)) ∧
    login o ≠ LoginResult.exn := by
  cases o with
  | netErr =>
      refine ⟨⟨fun ⟨t, ht⟩ => absurd ht (by simp [login]), ?_⟩, by simp [login]⟩
      rintro ⟨r, t, hr, -⟩
      exact LoginOutcome.noConfusion hr
  | resp r =>
      by_cases hok : res_ok r.status
      · cases hext : extractToken (safe_json r) with
        | error e => exact absurd hext (hshape r rfl e)
        | ok t =>
            by_cases hf : jsonFalsy t
            · refine ⟨⟨fun ⟨t2, ht2⟩ => ?_, ?_⟩, ?_⟩
              · rw [login] at ht2
                simp [hok, hext, hf] at ht2
              · rintro ⟨r2, t2, hr2, -, hext2, hf2⟩
                injection hr2 with hr3
                subst hr3
                rw [hext] at hext2
                injection hext2 with ht3
                subst ht3
                rw [hf] at hf2
                exact Bool.noConfusion hf2
              · rw [login]
                simp [hok, hext, hf]
            · refine ⟨⟨fun _ => ⟨r, t, rfl, hok, hext, by simp [hf]⟩, fun _ => ⟨t, ?_⟩⟩, ?_⟩
              · rw [login]
                simp [hok, hext, hf]
              · rw [login]
                simp [hok, hext, hf]
      · refine ⟨⟨fun ⟨t, ht⟩ => ?_, ?_⟩, ?_⟩
        · rw [login] at ht
          simp [hok] at ht
        · rintro ⟨r2, t, hr2, hok2, -⟩
          injection hr2 with hr3
          subst hr3
          exact absurd hok2 (by simp [hok])
        · rw [login]
          simp [hok]

/-- Witness for C6 (amended): a 401 authentication response with a
token-free object body produces a reported failure - no token and no
exception. -/
theorem login_token_characterization_witness :
    login (LoginOutcome.resp ⟨401, some (Json.obj []), ""⟩) ≠ LoginResult.exn ∧
    ¬ ∃ t, login (LoginOutcome.resp ⟨401, some (Json.obj []), ""⟩) =
      LoginResult.token t := by
  have H := login_token_characterization (LoginOutcome.resp ⟨401, some (Json.obj []), ""⟩)
    (fun r hr e => by
      injection hr with hr2
      subst hr2
      intro hc
      exact Except.noConfusion ((rfl : extractToken
        (safe_json ⟨401, some (Json.obj []), ""⟩) =
          Except.ok Json.null).symm.trans hc))
  refine ⟨H.2, fun hex => ?_⟩
  obtain ⟨r, t, hr, hok, -⟩ := H.1.mp hex
  injection hr with hr2
  subst hr2
  exact absurd hok (by decide)

/-- getLast? of a cons, expressed through getD. -/
theorem getLast?_cons_eq {α : Type} (a : α) (l : List α) :
    (a :: l).getLast? = some ((l.getLast?).getD a) := by
  cases l with
  | nil => rfl
  | cons b t =>
      rw [List.getLast?_cons_cons]
      obtain ⟨w, hw⟩ := Option.isSome_iff_exists.mp
        (List.getLast?_isSome.mpr (List.cons_ne_nil b t))
      rw [hw]
      rfl

/-- The original_to_numeric dict, where later assignments shadow earlier
ones, maps a number to the LAST collected original value parsing to it. -/
theorem lookupLast_filter (q : ℚ) (values : List Json) :
    lookupLast (numericPairs values) q =
      (values.filter (fun v => decide (toFloat? v = some q))).getLast? := by
  induction values with
  | nil => rfl
  | cons v rest ih =>
      cases hv : toFloat? v with
      | none =>
          have h1 : numericPairs (v :: rest) = numericPairs rest := by
            simp [numericPairs, hv]
          have h2 : (v :: rest).filter (fun v => decide (toFloat? v = some q)) =
              rest.filter (fun v => decide (toFloat? v = some q)) :=
            List.filter_cons_of_neg (by simp [hv])
          rw [h1, h2, ih]
      | some q2 =>
          have h1 : numericPairs (v :: rest) = (q2, v) :: numericPairs rest := by
            simp [numericPairs, hv]
          rw [h1]
          by_cases hq : q2 = q
          · subst hq
            rw [List.filter_cons_of_pos (by simp [hv]), getLast?_cons_eq]
            simp only [lookupLast, ih]
            cases (rest.filter (fun v => decide (toFloat? v = some q2))).getLast? with
            | none => simp
            | some w => simp
          · rw [List.filter_cons_of_neg (by simp [hv, hq])]
            simp only [lookupLast, ih]
            cases (rest.filter (fun v => decide (toFloat? v = some q))).getLast? with
            | none => simp [hq]
            | some w => simp

/-- Membership in the numeric pairs list. -/
theorem mem_numericPairs (values : List Json) (q : ℚ) (v : Json) :
    (q, v) ∈ numericPairs values ↔ v ∈ values ∧ toFloat? v = some q := by
  simp only [numericPairs, List.mem_filterMap, Option.map_eq_some']
  constructor
  · rintro ⟨a, ha, qa, hqa, heq⟩
    injection heq with heq1 heq2
    subst heq1
    subst heq2
    exact ⟨ha, hqa⟩
  · rintro ⟨hv, hq⟩
    exact ⟨v, hv, q, hq, rfl⟩

/-- With at least two numeric values, the comparison branch picks an
original collected value whose parse is the element at the middle of the
inter-quartile slice of the sorted numbers. -/
theorem comparison_pick_in_iqr (values : List Json)
    (h4 : 4 ≤ ((numericPairs values).map Prod.fst).length) :
    ∃ v q i,
      comparisonPick values = some (some v) ∧
      v ∈ values ∧ toFloat? v = some q ∧
      (sortedNumeric values).length / 4 ≤ i ∧
      i < 3 * (sortedNumeric values).length / 4 ∧
      (sortedNumeric values).getD i 0 = q := by
  have hslen : (sortedNumeric values).length =
      ((numericPairs values).map Prod.fst).length := List.length_insertionSort _ _
  have hmlen : (iqrSlice values).length =
      3 * (sortedNumeric values).length / 4 - (sortedNumeric values).length / 4 := by
    unfold iqrSlice
    rw [List.length_take, List.length_drop]
    omega
  have hmpos : 0 < (iqrSlice values).length := by omega
  have hidxlt : (iqrSlice values).length / 2 < (iqrSlice values).length := by omega
  have hgetD : ∀ k, k < (iqrSlice values).length →
      (iqrSlice values).getD k 0 =
      (sortedNumeric values).getD ((sortedNumeric values).length / 4 + k) 0 := by
    intro k hk
    rw [List.getD_eq_getElem?_getD, List.getD_eq_getElem?_getD]
    have hiq : iqrSlice values = ((sortedNumeric values).drop
        ((sortedNumeric values).length / 4)).take
        (3 * (sortedNumeric values).length / 4 - (sortedNumeric values).length / 4) := rfl
    rw [hiq, List.getElem?_take, if_pos (by omega), List.getElem?_drop]
  have hilt : (sortedNumeric values).length / 4 + (iqrSlice values).length / 2 <
      3 * (sortedNumeric values).length / 4 := by omega
  have hiltn : (sortedNumeric values).length / 4 + (iqrSlice values).length / 2 <
      (sortedNumeric values).length := by omega
  have hq_sorted : (sortedNumeric values).getD
      ((sortedNumeric values).length / 4 + (iqrSlice values).length / 2) 0 =
      (iqrSlice values).getD ((iqrSlice values).length / 2) 0 :=
    (hgetD _ hidxlt).symm
  have hq_eq : (iqrSlice values).getD ((iqrSlice values).length / 2) 0 =
      (sortedNumeric values).get ⟨_, hiltn⟩ := by
    rw [← hq_sorted, List.getD_eq_getElem?_getD, List.getElem?_eq_getElem hiltn]
    rfl
  have hmem_sorted : (iqrSlice values).getD ((iqrSlice values).length / 2) 0 ∈
      sortedNumeric values := by
    rw [hq_eq]
    exact List.get_mem _ _ _
  have hmem_nums : (iqrSlice values).getD ((iqrSlice values).length / 2) 0 ∈
      ((numericPairs values).map Prod.fst) :=
    (List.perm_insertionSort _ _).mem_iff.mp hmem_sorted
  rw [List.mem_map] at hmem_nums
  obtain ⟨p, hp, hp1⟩ := hmem_nums
  have hpair : ((iqrSlice values).getD ((iqrSlice values).length / 2) 0, p.2) ∈
      numericPairs values := by
    rw [← hp1]
    simpa using hp
  obtain ⟨hp2v, hp2q⟩ := (mem_numericPairs values _ p.2).mp hpair
  have hfil_ne : values.filter (fun v => decide (toFloat? v =
      some ((iqrSlice values).getD ((iqrSlice values).length / 2) 0))) ≠ [] :=
    List.ne_nil_of_mem (List.mem_filter.mpr ⟨hp2v, by simp [hp2q]⟩)
  obtain ⟨v, hv⟩ := Option.isSome_iff_exists.mp (List.getLast?_isSome.mpr hfil_ne)
  have hvmem : v ∈ values.filter (fun v => decide (toFloat? v =
      some ((iqrSlice values).getD ((iqrSlice values).length / 2) 0))) := by
    obtain ⟨hlt, hveq⟩ := List.mem_getLast?_eq_getLast (Option.mem_def.mpr hv)
    rw [hveq]
    exact List.getLast_mem hlt
  have hiempty : (iqrSlice values).isEmpty = false :=
    List.isEmpty_eq_false.mpr (List.ne_nil_of_length_pos hmpos)
  have hsel : selectedNumeric values =
      some ((iqrSlice values).getD ((iqrSlice values).length / 2) 0) := by
    unfold selectedNumeric
    rw [if_pos (by omega), hiempty]
    simp
  have hpick : comparisonPick values = some (some v) := by
    simp only [comparisonPick, hsel, lookupLast_filter, hv]
  refine ⟨v, (iqrSlice values).getD ((iqrSlice values).length / 2) 0,
    (sortedNumeric values).length / 4 + (iqrSlice values).length / 2,
    hpick, (List.mem_filter.mp hvmem).1, ?_, by omega, hilt, hq_sorted⟩
  have := (List.mem_filter.mp hvmem).2
  simpa using this

/-- Claim C4: when the rows yield at least four distinct numeric values,
the comparison extraction returns one of the original collected values,
and its numeric parse sits at a sorted-order index in the 25 to 75
percent range of the sorted numeric values. -/
theorem comparison_sample_in_iqr (response_data : Json) (group field : String)
    (h4 : 4 ≤ (((numericPairs (collectedValues response_data group field)).map
      Prod.fst).dedup).length) :
    ∃ v q i,
      extract_sample_value response_data group field true = some v ∧
      v ∈ collectedValues response_data group field ∧
      toFloat? v = some q ∧
      (sortedNumeric (collectedValues response_data group field)).length / 4 ≤ i ∧
      i < 3 * (sortedNumeric (collectedValues response_data group field)).length / 4 ∧
      (sortedNumeric (collectedValues response_data group field)).getD i 0 = q := by
  have hnlen : 4 ≤ ((numericPairs (collectedValues response_data group field)).map
      Prod.fst).length :=
    le_trans h4 (List.Sublist.length_le (List.dedup_sublist _))
  obtain ⟨v, q, i, hpick, hvmem, hvq, hi1, hi2, hgd⟩ :=
    comparison_pick_in_iqr (collectedValues response_data group field) hnlen
  refine ⟨v, q, i, ?_, hvmem, hvq, hi1, hi2, hgd⟩
  have hvlen : 4 ≤ (collectedValues response_data group field).length :=
    le_trans hnlen (by rw [List.length_map]; exact List.length_filterMap_le _ _)
  have hempty : (collectedValues response_data group field).isEmpty = false :=
    List.isEmpty_eq_false.mpr (List.ne_nil_of_length_pos (by omega))
  have hgt : 1 < (collectedValues response_data group field).length := by omega
  simp [extract_sample_value, hempty, hpick, hgt]

/-- Witness for C4: the example rows have four distinct numeric values
and the comparison sample 30 sits inside the inter-quartile index
range. -/
theorem comparison_sample_in_iqr_witness :
    4 ≤ (((numericPairs (collectedValues exampleWrap "payment" "amount")).map
      Prod.fst).dedup).length ∧
    ∃ v q i,
      extract_sample_value exampleWrap "payment" "amount" true = some v ∧
      v ∈ collectedValues exampleWrap "payment" "amount" ∧
      toFloat? v = some q ∧
      (sortedNumeric (collectedValues exampleWrap "payment" "amount")).length / 4 ≤ i ∧
      i < 3 * (sortedNumeric (collectedValues exampleWrap "payment" "amount")).length / 4 ∧
      (sortedNumeric (collectedValues exampleWrap "payment" "amount")).getD i 0 = q :=
  ⟨by decide, comparison_sample_in_iqr exampleWrap "payment" "amount" (by decide)⟩

/-- Claim C5: on rows with amounts 10, 20.0, 20 and 30, the selected
middle number is 20, which two originals parse to; the value returned is
20 - the LAST occurrence in collection order - not the first occurrence
20.0 that the claim names. -/
theorem comparison_tie_counterexample :
    extract_sample_value tieWrap "payment" "amount" true = some (Json.str ("20")) ∧
    extract_sample_value tieWrap "payment" "amount" true ≠ some (Json.str ("20.0")) ∧
    (collectedValues tieWrap "payment" "amount").filter
      (fun v => decide (toFloat? v = some (mkRat 20 1))) =
      [Json.str ("20.0"), Json.str ("20")] ∧
    selectedNumeric (collectedValues tieWrap "payment" "amount") = some (mkRat 20 1) := by
  refine ⟨rfl, fun h => ?_, rfl, rfl⟩
  have h20 : extract_sample_value tieWrap "payment" "amount" true =
      some (Json.str ("20")) := rfl
  rw [h20] at h
  have hs : ("20" : String) = "20.0" := by injection Option.some.inj h
  exact absurd hs (by decide)

/-- Claim C5 (amended): when the comparison branch selects the number q,
the value returned is the original whose parse equals q that occurs LAST
in collection order (later assignments overwrite earlier ones in the
parse map). -/
theorem comparison_tie_last_occurrence (response_data : Json) (group field : String)
    (q : ℚ)
    (hq : selectedNumeric (collectedValues response_data group field) = some q) :
    extract_sample_value response_data group field true =
      ((collectedValues response_data group field).filter
        (fun v => decide (toFloat? v = some q))).getLast? := by
  have hlen : 1 < ((numericPairs (collectedValues response_data group field)).map
      Prod.fst).length := by
    by_contra hcon
    unfold selectedNumeric at hq
    rw [if_neg hcon] at hq
    exact Option.noConfusion hq
  have hvlen : 1 < (collectedValues response_data group field).length :=
    lt_of_lt_of_le hlen (by rw [List.length_map]; exact List.length_filterMap_le _ _)
  have hempty : (collectedValues response_data group field).isEmpty = false :=
    List.isEmpty_eq_false.mpr (List.ne_nil_of_length_pos (by omega))
  have hpick : comparisonPick (collectedValues response_data group field) =
      some (lookupLast (numericPairs (collectedValues response_data group field)) q) := by
    simp only [comparisonPick, hq]
  simp [extract_sample_value, hempty, hpick, hvlen, lookupLast_filter]

/-- Witness for C5 (amended): on the tie rows the selected number is 20
and the extraction returns the last original parsing to 20. -/
theorem comparison_tie_last_occurrence_witness :
    extract_sample_value tieWrap "payment" "amount" true =
      ((collectedValues tieWrap "payment" "amount").filter
        (fun v => decide (toFloat? v = some (mkRat 20 1)))).getLast? :=
  comparison_tie_last_occurrence tieWrap "payment" "amount" (mkRat 20 1) rfl

end FilterTester
